import Mathlib

/-!
# Codec server: namespace-scoped codec chains behind JWT authentication

A shallow embedding of `codec-server/main.go`.

* An HTTP handler is a function from the response writer so far and the
  request to the response writer afterwards.  The writer also carries the
  server-side effects of the exchange (lines printed with `fmt.Printf`, the
  calls to the key-set endpoint, to the token parser, to the codec stages and
  to the JSON encoder), in program order.
* Library code the program calls is a parameter (`Env`): the JWKS fetch, the
  JWT parser and the JSON decoder and encoder.  A codec stage
  (`converter.PayloadCodec`) is a pair of fallible functions on batches.
* `http.ServeMux` is modelled for the patterns this program registers: fixed
  paths without a trailing slash.  A request other than `CONNECT` whose path
  is not in canonical form is answered with a redirect to the cleaned path;
  otherwise the pattern equal to the path is served.
-/

namespace CodecServer

/-! ## Data model -/

/-- Models `commonpb.Payload`: metadata entries and opaque data bytes. -/
structure Payload where
  metadata : List (String × List Nat)
  data : List Nat
  deriving DecidableEq, Repr

/-- Models `converter.PayloadCodec`: one stage of a chain, with its two operations.
An error is represented by its text (`err.Error()`). -/
structure PayloadCodec where
  Encode : List Payload → Except String (List Payload)
  Decode : List Payload → Except String (List Payload)

/-- Models `jwk.Set`: the keys served by the issuer endpoint. -/
structure KeySet where
  keys : List String
  deriving DecidableEq, Repr

/-- Models `jwt.Token`: the claims the handler reads from a verified token. -/
structure Token where
  subject : String
  issuer : String
  audience : List String
  expiration : Nat
  deriving DecidableEq, Repr

/-- The library calls of the program, as they answer during one exchange. -/
structure Env where
  /-- Models `jwk.Fetch(ctx, url)`, a network call with a ten second timeout. -/
  fetch : String → Except String KeySet
  /-- Models `jwt.Parse(token, jwt.WithKeySet(keySet))`. -/
  parse : String → KeySet → Except String Token
  /-- Models `json.NewDecoder(r.Body).Decode(&req)`, giving `req.Payloads`. -/
  decodeBody : String → Except String (List Payload)
  /-- Models `json.NewEncoder(w).Encode(resp)`, giving the bytes written to `w`. -/
  encodeBody : List Payload → Except String String

/-- Models `http.Request`, the parts the program reads: `path` is `r.URL.Path`,
header names are in canonical form. -/
structure Request where
  method : String
  path : String
  header : List (String × String)
  body : String
  remoteAddr : String
  deriving DecidableEq, Repr

/-- Models `r.Header.Get(key)`: the value of the header, `""` when it is absent. -/
def Request.headerGet (r : Request) (key : String) : String :=
  (r.header.lookup key).getD ""

/-- A line printed by one `fmt.Printf` call site, with the arguments it
formats.  The consecutive lines that report a validated token are one entry;
the duration reported when a request completes is left out. -/
inductive LogLine where
  | noCodecChain (nspace : String) (available : List String)
  | missingAuthorization (operation nspace : String)
  | processingRequest (operation nspace : String) (truncatedAuth : List Nat)
  | invalidAuthorizationFormat (operation nspace : String)
  | tokenReceived (truncatedToken : List Nat)
  | validationFailed (operation nspace err : String)
  | validated (token : Token) (nspace operation : String)
  | invalidMethod (method operation : String)
  | decodeFailed (operation err : String)
  | processingPayloads (count : Nat) (operation : String)
  | codecError (position : Nat) (operation err : String)
  | processed (operation nspace : String) (count : Nat)
  | encodeFailed (operation err : String)
  | request (method path remoteAddr : String)
  | xNamespace (nspace : String)
  | requestCompleted
  deriving DecidableEq, Repr

/-- What the server does during an exchange besides writing the response. -/
inductive Effect where
  | printf (line : LogLine)
  | jwksFetch (url : String)
  | jwtParse (token : String)
  | codecCall (position : Nat) (isEncode : Bool)
  | jsonEncode (payloads : List Payload)
  deriving DecidableEq, Repr

/-- The effect is a call to a codec stage. -/
def Effect.isCodecCall : Effect → Bool
  | .codecCall _ _ => true
  | _ => false

/-- The effect belongs to the authenticator (key-set fetch or token parse). -/
def Effect.isAuthCall : Effect → Bool
  | .jwksFetch _ => true
  | .jwtParse _ => true
  | _ => false

/-- The effect is a call to the JSON encoder of the response envelope. -/
def Effect.isJsonEncode : Effect → Bool
  | .jsonEncode _ => true
  | _ => false

/-- Models `http.ResponseWriter` together with the effects of the exchange so far.
`status` is `none` until the status line is written. -/
structure Served where
  header : List (String × String)
  status : Option Nat
  body : String
  effects : List Effect
  deriving DecidableEq, Repr

/-- The writer a handler receives from the server. -/
def Served.fresh : Served := ⟨[], none, "", []⟩

/-- The status code the client receives: 200 when the handler returns without
writing a status line. -/
def Served.statusCode (w : Served) : Nat := w.status.getD 200

/-- Models `w.Header().Set(key, value)`. -/
def Served.setHeader (w : Served) (key value : String) : Served :=
  { w with header := (w.header.filter fun kv => kv.1 != key) ++ [(key, value)] }

/-- Models `fmt.Printf` of one log line. -/
def Served.printf (w : Served) (line : LogLine) : Served :=
  { w with effects := w.effects ++ [Effect.printf line] }

/-- Records one effect. -/
def Served.emit (w : Served) (e : Effect) : Served :=
  { w with effects := w.effects ++ [e] }

/-- Models `w.Write(bytes)`: writes the status line 200 if none was written. -/
def Served.write (w : Served) (bytes : String) : Served :=
  { w with status := some (w.status.getD 200), body := w.body ++ bytes }

/-- Models `http.Error(w, error, code)`: plain-text content type, the status line,
then the message followed by a newline.  (The headers it deletes are never set
by this program.) -/
def httpError (w : Served) (error : String) (code : Nat) : Served :=
  let w := w.setHeader "Content-Type" "text/plain; charset=utf-8"
  let w := w.setHeader "X-Content-Type-Options" "nosniff"
  { w with status := some code, body := w.body ++ error ++ "\n" }

/-- An HTTP handler: `ServeHTTP(w, r)`. -/
abbrev Handler := Served → Request → Served

/-! ## The program -/

/-- The JWKS endpoint. -/
def jwksURL : String := "https://login.tmprl.cloud/.well-known/jwks.json"

/-- Models `strings.Split(s, " ")`. -/
def stringsSplit (s : String) : List String :=
  (s.data.splitOn ' ').map String.mk

/-- The bytes of a string (its UTF-8 encoding), which Go's `len` and slices
count. -/
def utf8Bytes (s : String) : List Nat :=
  (s.data.flatMap String.utf8EncodeChar).map UInt8.toNat

/-- The truncation applied to credentials before they are logged:
`s[:47] + "..."` when `len(s) > 50`, as bytes. -/
def truncate (s : String) : List Nat :=
  if (utf8Bytes s).length > 50 then (utf8Bytes s).take 47 ++ utf8Bytes "..." else utf8Bytes s

/-- Models `validateJWTWithJWKS`: fetches the key set on every call, then parses and
verifies the token against it.  Returns the outcome and the calls made.
Nothing is cached between calls (the comments in `handleCodecRequest` and
`main` that mention a cache describe no code). -/
def validateJWTWithJWKS (env : Env) (tokenString : String) :
    Except String Token × List Effect :=
  match env.fetch jwksURL with
  | .error err => (.error ("failed to fetch JWKS: " ++ err), [Effect.jwksFetch jwksURL])
  | .ok keySet =>
    (env.parse tokenString keySet, [Effect.jwksFetch jwksURL, Effect.jwtParse tokenString])

/-- The loop over the codec chain in `handleCodecRequest`: stage `i` receives
the result of the stages before it; the first error ends the loop with the
stage position and the error. -/
def codecChainLoop (isEncode : Bool) :
    List PayloadCodec → Nat → List Payload → Served →
      Except (Nat × String) (List Payload) × Served
  | [], _, result, w => (.ok result, w)
  | codec :: rest, i, result, w =>
    let w := w.emit (Effect.codecCall i isEncode)
    match (if isEncode then codec.Encode result else codec.Decode result) with
    | .error err => (.error (i, err), w)
    | .ok result => codecChainLoop isEncode rest (i + 1) result w

/-- Models `handleCodecRequest`: the handler of encode and decode requests with JWT
authentication. -/
def handleCodecRequest (env : Env) (w : Served) (r : Request) (nspace : String)
    (codecChain : List PayloadCodec) (isEncode : Bool) : Served :=
  let operation := if isEncode then "encode" else "decode"
  let authHeader := r.headerGet "Authorization"
  if authHeader = "" then
    let w := w.printf (.missingAuthorization operation nspace)
    httpError w "Authorization header required" 401
  else
    let w := w.printf (.processingRequest operation nspace (truncate authHeader))
    let tokenParts := stringsSplit authHeader
    if tokenParts.length ≠ 2 ∨ tokenParts.getD 0 "" ≠ "Bearer" then
      let w := w.printf (.invalidAuthorizationFormat operation nspace)
      httpError w "Invalid authorization format. Use \x27Bearer <token>\x27" 401
    else
      let jwtToken := tokenParts.getD 1 ""
      let w := w.printf (.tokenReceived (truncate jwtToken))
      let validation := validateJWTWithJWKS env jwtToken
      let w := { w with effects := w.effects ++ validation.2 }
      match validation.1 with
      | .error err =>
        let w := w.printf (.validationFailed operation nspace err)
        httpError w "Invalid JWT token" 401
      | .ok token =>
        let w := w.printf (.validated token nspace operation)
        if r.method ≠ "POST" then
          let w := w.printf (.invalidMethod r.method operation)
          httpError w "Method not allowed" 405
        else
          match env.decodeBody r.body with
          | .error err =>
            let w := w.printf (.decodeFailed operation err)
            httpError w "Invalid JSON in request body" 400
          | .ok payloads =>
            let w := w.printf (.processingPayloads payloads.length operation)
            match codecChainLoop isEncode codecChain 0 payloads w with
            | (.error (i, err), w) =>
              let w := w.printf (.codecError i operation err)
              httpError w ("Codec error: " ++ err) 500
            | (.ok result, w) =>
              let w := w.printf (.processed operation nspace result.length)
              let w := w.setHeader "Content-Type" "application/json"
              let w := w.emit (Effect.jsonEncode result)
              match env.encodeBody result with
              | .error err =>
                let w := w.printf (.encodeFailed operation err)
                httpError w "Internal server error" 500
              | .ok bytes => w.write bytes

/-- Models `getMapKeys`: the registered namespaces. -/
def getMapKeys (m : List (String × List PayloadCodec)) : List String :=
  m.map Prod.fst

/-- The segments of a rooted path that `path.Clean` keeps: empty segments and
`.` are dropped, `..` drops the segment kept before it (none at the root).
`kept` holds the segments kept so far, last first. -/
def cleanSegments : List (List Char) → List (List Char) → List (List Char)
  | [], kept => kept.reverse
  | seg :: rest, kept =>
    if seg = [] ∨ seg = ['.'] then cleanSegments rest kept
    else if seg = ['.', '.'] then cleanSegments rest kept.tail
    else cleanSegments rest (seg :: kept)

/-- Models `path.Clean` on a rooted path. -/
def pathClean (p : List Char) : List Char :=
  '/' :: ['/'].intercalate (cleanSegments (p.splitOn '/') [])

/-- Models `cleanPath` of `net/http`: the canonical form of a request path,
rooted, without empty, `.` or `..` segments, a trailing slash kept. -/
def cleanPath (p : String) : String :=
  if p = "" then "/"
  else
    let p := if p.data.head? = some '/' then p else "/" ++ p
    let np := String.mk (pathClean p.data)
    if p.data.getLast? = some '/' ∧ np ≠ "/" then np ++ "/" else np

/-- Models `htmlEscape` of `net/http`. -/
def htmlEscape (s : String) : String :=
  String.join (s.data.map fun c =>
    if c = '&' then "&amp;"
    else if c = '<' then "&lt;"
    else if c = '>' then "&gt;"
    else if c = Char.ofNat 34 then "&#34;"
    else if c = Char.ofNat 39 then "&#39;"
    else String.singleton c)

/-- The status of the redirects `http.ServeMux` answers:
`http.StatusTemporaryRedirect` (earlier releases of `net/http` answer 301). -/
def muxRedirectStatus : Nat := 307

/-- Models `http.StatusText` on the redirect statuses of the mux. -/
def statusText (code : Nat) : String :=
  if code = 301 then "Moved Permanently"
  else if code = 307 then "Temporary Redirect"
  else ""

/-- Models `http.Redirect(w, r, url, code)` for a rooted, cleaned ASCII `url`:
the `Location` header, the status line, and for `GET` a short HTML body. -/
def httpRedirect (w : Served) (r : Request) (url : String) (code : Nat) : Served :=
  let hadCT := (w.header.lookup "Content-Type").isSome
  let w := w.setHeader "Location" url
  let w := if ¬ hadCT ∧ (r.method = "GET" ∨ r.method = "HEAD") then
      w.setHeader "Content-Type" "text/html; charset=utf-8" else w
  let w := { w with status := some code }
  if ¬ hadCT ∧ r.method = "GET" then
    { w with body := w.body ++ "<a href=\x22" ++ htmlEscape url ++ "\x22>" ++
        statusText code ++ "</a>.\n" ++ "\n" }
  else w

/-- Models `http.ServeMux` over fixed patterns.  A request other than `CONNECT`
whose path differs from its cleaned form is redirected to the cleaned path;
otherwise the handler registered for the path is served, or `http.NotFound`. -/
def serveMux (routes : List (String × Handler)) : Handler := fun w r =>
  if r.method ≠ "CONNECT" ∧ cleanPath r.path ≠ r.path then
    httpRedirect w r (cleanPath r.path) muxRedirectStatus
  else
    match routes.lookup r.path with
    | some handler => handler w r
    | none => httpError w "404 page not found" 404

/-- The two routes registered for one namespace of the registry. -/
def namespaceRoutes (env : Env) (entry : String × List PayloadCodec) :
    List (String × Handler) :=
  let ns := entry.1
  let chain := entry.2
  [("/" ++ ns ++ "/encode", fun w r => handleCodecRequest env w r ns chain true),
   ("/" ++ ns ++ "/decode", fun w r => handleCodecRequest env w r ns chain false)]

/-- The handler of `/encode` and `/decode`: the namespace is read from the
`X-Namespace` header and defaults to `"default"`. -/
def headerRoute (env : Env) (encoders : List (String × List PayloadCodec))
    (isEncode : Bool) : Handler := fun w r =>
  let nspace := r.headerGet "X-Namespace"
  let nspace := if nspace = "" then "default" else nspace
  match encoders.lookup nspace with
  | some codecChain => handleCodecRequest env w r nspace codecChain isEncode
  | none =>
    let w := w.printf (.noCodecChain nspace (getMapKeys encoders))
    httpError w "Not Found" 404

/-- Models `newPayloadCodecNamespacesHTTPHandler`: the mux with two routes per
registered namespace and the two header-driven routes.  The registry is a map:
the list holds each key once. -/
def newPayloadCodecNamespacesHTTPHandler (env : Env)
    (encoders : List (String × List PayloadCodec)) : Handler :=
  serveMux ((encoders.flatMap (namespaceRoutes env)) ++
    [("/encode", headerRoute env encoders true),
     ("/decode", headerRoute env encoders false)])

/-- Models `requestLoggingMiddleware`. -/
def requestLoggingMiddleware (next : Handler) : Handler := fun w r =>
  let w := w.printf (.request r.method r.path r.remoteAddr)
  let nspace := r.headerGet "X-Namespace"
  let w := if nspace ≠ "" then w.printf (.xNamespace nspace) else w
  let w := next w r
  w.printf .requestCompleted

/-- Models `newCORSHTTPHandler`: sets the three CORS headers and answers `OPTIONS`
without calling the wrapped handler. -/
def newCORSHTTPHandler (web : String) (next : Handler) : Handler := fun w r =>
  let w := w.setHeader "Access-Control-Allow-Origin" web
  let w := w.setHeader "Access-Control-Allow-Credentials" "true"
  let w := w.setHeader "Access-Control-Allow-Headers" "Authorization,Content-Type,X-Namespace"
  if r.method = "OPTIONS" then w else next w r

/-- The registry configured in `main`; `newPayloadCodec` stands for
`temporalconverters.NewPayloadCodec()`. -/
def codecs (newPayloadCodec : PayloadCodec) : List (String × List PayloadCodec) :=
  [("default", [newPayloadCodec]), ("tusharb-demo-mtls.sdvdw", [newPayloadCodec])]

/-- The handler `main` installs in the server: the mux, wrapped in the logging
middleware, wrapped in the CORS handler when `-web` is given. -/
def mainHandler (env : Env) (webFlag : String) (newPayloadCodec : PayloadCodec) : Handler :=
  let handler := newPayloadCodecNamespacesHTTPHandler env (codecs newPayloadCodec)
  let handler := requestLoggingMiddleware handler
  if webFlag ≠ "" then newCORSHTTPHandler webFlag handler else handler

/-! ## Specification-side definitions -/

/-- The operation of a stage in the given direction: `Encode` for encode and
the reverse operation `Decode` for decode. -/
def stageOp (isEncode : Bool) (stage : PayloadCodec) (batch : List Payload) :
    Except String (List Payload) :=
  if isEncode then stage.Encode batch else stage.Decode batch

/-- The chain as the specification words it: starting from the batch, every
stage in declared order receives the result of the stage before it, with its
operation of the direction; an error is carried to the end. -/
def applyInOrder (isEncode : Bool) (chain : List PayloadCodec) (batch : List Payload) :
    Except String (List Payload) :=
  chain.foldl (fun acc stage => acc.bind (stageOp isEncode stage)) (.ok batch)

/-- The calls to the stages at positions `i, ..., i + n - 1`, in this order. -/
def stageCalls (isEncode : Bool) (i n : Nat) : List Effect :=
  (List.range' i n).map fun j => Effect.codecCall j isEncode

/-- The name of the direction, as the handler logs it. -/
def operationName (isEncode : Bool) : String :=
  if isEncode then "encode" else "decode"

/-- The path of the header-driven route of a direction. -/
def directionPath (isEncode : Bool) : String :=
  if isEncode then "/encode" else "/decode"

/-- The path of the route registered for a namespace and a direction. -/
def namespacePath (nspace : String) (isEncode : Bool) : String :=
  "/" ++ nspace ++ directionPath isEncode

/-- The namespace the header-driven routes resolve for a request. -/
def headerNamespace (r : Request) : String :=
  if r.headerGet "X-Namespace" = "" then "default" else r.headerGet "X-Namespace"

/-- The request names the namespace for the direction: by its path
`/<namespace>/encode` or `/<namespace>/decode`, or on `/encode` or `/decode` by
its `X-Namespace` header (`"default"` when the header is absent). -/
def routesTo (r : Request) (nspace : String) (isEncode : Bool) : Prop :=
  r.path = namespacePath nspace isEncode ∨
    (r.path = directionPath isEncode ∧ headerNamespace r = nspace)

instance (r : Request) (nspace : String) (isEncode : Bool) :
    Decidable (routesTo r nspace isEncode) := by
  unfold routesTo
  infer_instance

/-- The writer of `handleCodecRequest` once the token `tok` of the
authorization header went through `validateJWTWithJWKS`: the two lines logged
so far and the calls of the validation are added to the effects. -/
def afterValidation (env : Env) (w : Served) (r : Request) (nspace : String)
    (isEncode : Bool) (tok : String) : Served :=
  { w with effects := w.effects ++
      [Effect.printf (.processingRequest (operationName isEncode) nspace
          (truncate (r.headerGet "Authorization"))),
        Effect.printf (.tokenReceived (truncate tok))] ++
      (validateJWTWithJWKS env tok).2 }

/-- The writer of `handleCodecRequest` when the chain loop starts on `batch`,
for a request whose token validated to `token`. -/
def beforeChain (env : Env) (w : Served) (r : Request) (nspace : String)
    (isEncode : Bool) (tok : String) (token : Token) (batch : List Payload) : Served :=
  ((afterValidation env w r nspace isEncode tok).printf
    (.validated token nspace (operationName isEncode))).printf
    (.processingPayloads batch.length (operationName isEncode))

/-! ## Sample stages, environment and requests -/

/-- A stage that puts a tag byte in front of the data of every payload when it
encodes, and removes a leading tag byte when it decodes (a payload without the
tag passes unchanged). -/
def tagCodec (tag : Nat) : PayloadCodec where
  Encode := fun batch => .ok (batch.map fun p => { p with data := tag :: p.data })
  Decode := fun batch => .ok (batch.map fun p =>
    match p.data with
    | t :: rest => if t = tag then { p with data := rest } else p
    | [] => p)

/-- A stage whose two operations fail with the given error. -/
def failingCodec (err : String) : PayloadCodec :=
  ⟨fun _ => .error err, fun _ => .error err⟩

/-- A sample environment: the key set is served, the token `good` verifies,
the body `AA==` decodes to one payload holding a zero byte. -/
def sampleEnv : Env where
  fetch := fun _ => .ok ⟨["key-1"]⟩
  parse := fun token _ =>
    if token = "good" then .ok ⟨"alice", "issuer", ["console"], 0⟩
    else .error "could not verify message"
  decodeBody := fun body =>
    if body = "AA==" then .ok [⟨[], [0]⟩] else .error "invalid character"
  encodeBody := fun ps => .ok (String.mk (ps.flatMap fun p => p.data.map Char.ofNat))

/-- A sample environment in which the key-set endpoint cannot be reached. -/
def offlineEnv : Env :=
  { sampleEnv with fetch := fun _ => .error "dial tcp: i/o timeout" }

/-- A request with the given method, path and headers, and the body `AA==`. -/
def sampleRequest (method path : String) (header : List (String × String)) : Request :=
  ⟨method, path, header, "AA==", "192.0.2.1:4711"⟩

/-! ## The chain loop -/

theorem foldl_bind_error (isEncode : Bool) (chain : List PayloadCodec) (e : String) :
    chain.foldl (fun acc stage => Except.bind acc (stageOp isEncode stage))
      (Except.error e : Except String (List Payload)) = .error e := by
  induction chain with
  | nil => rfl
  | cons s rest ih => simpa [List.foldl, Except.bind] using ih

theorem applyInOrder_cons (isEncode : Bool) (s : PayloadCodec) (rest : List PayloadCodec)
    (batch : List Payload) :
    applyInOrder isEncode (s :: rest) batch =
      (stageOp isEncode s batch).bind (applyInOrder isEncode rest) := by
  unfold applyInOrder
  simp only [List.foldl, Except.bind]
  cases h : stageOp isEncode s batch with
  | error e => simpa using foldl_bind_error isEncode rest e
  | ok b => simp

theorem codecChainLoop_cons (isEncode : Bool) (s : PayloadCodec) (rest : List PayloadCodec)
    (i : Nat) (batch : List Payload) (w : Served) :
    codecChainLoop isEncode (s :: rest) i batch w =
      match stageOp isEncode s batch with
      | .error err => (.error (i, err), w.emit (Effect.codecCall i isEncode))
      | .ok result =>
        codecChainLoop isEncode rest (i + 1) result (w.emit (Effect.codecCall i isEncode)) := by
  simp [codecChainLoop, stageOp]

theorem codecChainLoop_result (isEncode : Bool) (chain : List PayloadCodec) :
    ∀ (i : Nat) (batch : List Payload) (w : Served),
      (codecChainLoop isEncode chain i batch w).1.mapError Prod.snd =
        applyInOrder isEncode chain batch := by
  induction chain with
  | nil => intro i batch w; rfl
  | cons s rest ih =>
    intro i batch w
    rw [applyInOrder_cons, codecChainLoop_cons]
    cases h : stageOp isEncode s batch with
    | error e => simp [Except.mapError, Except.bind]
    | ok b => simp [Except.bind, ih]

theorem codecChainLoop_ok (isEncode : Bool) (chain : List PayloadCodec) :
    ∀ (i : Nat) (batch : List Payload) (w : Served) (out : List Payload),
      applyInOrder isEncode chain batch = .ok out →
      codecChainLoop isEncode chain i batch w =
        (.ok out, { w with effects := w.effects ++ stageCalls isEncode i chain.length }) := by
  induction chain with
  | nil =>
    intro i batch w out h
    simp [applyInOrder] at h
    simp [codecChainLoop, stageCalls, h]
  | cons s rest ih =>
    intro i batch w out h
    rw [applyInOrder_cons] at h
    rw [codecChainLoop_cons]
    cases hs : stageOp isEncode s batch with
    | error e => simp [hs, Except.bind] at h
    | ok b =>
      simp only [hs, Except.bind] at h
      simp only []
      rw [ih (i + 1) b _ out h]
      simp [stageCalls, Served.emit, List.range'_succ]

theorem codecChainLoop_error (isEncode : Bool) (pre : List PayloadCodec) (stage : PayloadCodec)
    (post : List PayloadCodec) :
    ∀ (i : Nat) (batch : List Payload) (w : Served) (mid : List Payload) (err : String),
      applyInOrder isEncode pre batch = .ok mid →
      stageOp isEncode stage mid = .error err →
      codecChainLoop isEncode (pre ++ stage :: post) i batch w =
        (.error (i + pre.length, err),
          { w with effects := w.effects ++ stageCalls isEncode i (pre.length + 1) }) := by
  induction pre with
  | nil =>
    intro i batch w mid err h hs
    simp [applyInOrder] at h
    subst h
    rw [List.nil_append, codecChainLoop_cons, hs]
    simp [stageCalls, Served.emit]
  | cons s rest ih =>
    intro i batch w mid err h hs
    rw [applyInOrder_cons] at h
    rw [List.cons_append, codecChainLoop_cons]
    cases hb : stageOp isEncode s batch with
    | error e => simp [hb, Except.bind] at h
    | ok b =>
      simp only [hb, Except.bind] at h
      simp only []
      rw [ih (i + 1) b _ mid err h hs]
      simp [stageCalls, Served.emit, List.range'_succ, Nat.add_assoc, Nat.add_comm 1]


theorem stringsSplit_empty : stringsSplit "" = [""] := by decide

theorem authHeader_ne_empty {s a b : String} (h : stringsSplit s = [a, b]) : s ≠ "" := by
  intro hs
  subst hs
  rw [stringsSplit_empty] at h
  simp at h

theorem stringsSplit_bearer (token : String) (h : ' ' ∉ token.data) :
    stringsSplit ("Bearer " ++ token) = ["Bearer", token] := by
  have hform : ("Bearer " ++ token).data = [' '].intercalate ["Bearer".data, token.data] := by
    simp [List.intercalate]
  unfold stringsSplit
  rw [hform, List.splitOn_intercalate]
  · rfl
  · intro l hl
    simp at hl
    rcases hl with rfl | rfl
    · decide
    · exact h
  · simp

theorem namespacePath_inj {a b : String} {d : Bool} :
    namespacePath a d = namespacePath b d ↔ a = b := by
  constructor
  · intro h
    have := congrArg String.data h
    simp [namespacePath] at this
    exact String.ext this
  · rintro rfl; rfl

theorem namespacePath_ne_direction (a b : String) :
    namespacePath a true ≠ namespacePath b false := by
  intro h
  have := congrArg String.data h
  simp [namespacePath, directionPath] at this
  have h2 := List.append_inj' this (by decide)
  exact absurd h2.2 (by decide)

theorem namespacePath_ne_directionPath (a : String) (d e : Bool) :
    namespacePath a d ≠ directionPath e := by
  intro h
  have := congrArg (fun s => s.data.length) h
  cases d <;> cases e <;> simp [namespacePath, directionPath] at this


theorem namespaceRoutes_eq (env : Env) (k : String) (c : List PayloadCodec) :
    namespaceRoutes env (k, c) =
      [(namespacePath k true, fun w r => handleCodecRequest env w r k c true),
       (namespacePath k false, fun w r => handleCodecRequest env w r k c false)] := rfl

theorem lookup_namespaceRoutes (env : Env) (encoders : List (String × List PayloadCodec))
    (nspace : String) (isEncode : Bool) :
    (encoders.flatMap (namespaceRoutes env)).lookup (namespacePath nspace isEncode) =
      (encoders.lookup nspace).map fun chain =>
        fun w r => handleCodecRequest env w r nspace chain isEncode := by
  induction encoders with
  | nil => rfl
  | cons entry rest ih =>
    obtain ⟨k, c⟩ := entry
    rw [List.flatMap_cons, namespaceRoutes_eq, List.lookup_append]
    by_cases hk : nspace = k
    · subst hk
      cases isEncode with
      | true => simp [List.lookup_cons]
      | false =>
        have hne : (namespacePath nspace false == namespacePath nspace true) = false := by
          simpa using (namespacePath_ne_direction nspace nspace).symm
        simp [List.lookup_cons, hne]
    · have h1 : ∀ d, (namespacePath nspace isEncode == namespacePath k d) = false := by
        intro d
        simp only [beq_eq_false_iff_ne, ne_eq]
        intro h
        cases isEncode <;> cases d
        · exact hk (namespacePath_inj.mp h)
        · exact namespacePath_ne_direction k nspace h.symm
        · exact namespacePath_ne_direction nspace k h
        · exact hk (namespacePath_inj.mp h)
      have h2 : (nspace == k) = false := by simpa using hk
      simp [List.lookup_cons, h1, h2, ih]

theorem lookup_namespaceRoutes_direction (env : Env)
    (encoders : List (String × List PayloadCodec)) (isEncode : Bool) :
    (encoders.flatMap (namespaceRoutes env)).lookup (directionPath isEncode) = none := by
  induction encoders with
  | nil => rfl
  | cons entry rest ih =>
    obtain ⟨k, c⟩ := entry
    have h1 : ∀ d, (directionPath isEncode == namespacePath k d) = false := by
      intro d
      simp only [beq_eq_false_iff_ne, ne_eq]
      exact fun h => namespacePath_ne_directionPath k d isEncode h.symm
    rw [List.flatMap_cons, namespaceRoutes_eq, List.lookup_append]
    simp [List.lookup_cons, h1, ih]

/-- The mux on a `CONNECT` request or a canonical path: the exact lookup. -/
theorem serveMux_lookup (routes : List (String × Handler)) (w : Served) (r : Request)
    (hcanon : r.method = "CONNECT" ∨ cleanPath r.path = r.path) :
    serveMux routes w r =
      match routes.lookup r.path with
      | some handler => handler w r
      | none => httpError w "404 page not found" 404 := by
  unfold serveMux
  rw [if_neg]
  rintro ⟨h1, h2⟩
  rcases hcanon with h | h
  · exact h1 h
  · exact h2 h

/-- The mux on any other request: the redirect to the cleaned path. -/
theorem serveMux_redirect (routes : List (String × Handler)) (w : Served) (r : Request)
    (hmethod : r.method ≠ "CONNECT") (hpath : cleanPath r.path ≠ r.path) :
    serveMux routes w r = httpRedirect w r (cleanPath r.path) muxRedirectStatus := by
  unfold serveMux
  rw [if_pos ⟨hmethod, hpath⟩]

theorem httpRedirect_status (w : Served) (r : Request) (url : String) (code : Nat) :
    (httpRedirect w r url code).status = some code := by
  simp only [httpRedirect]
  split_ifs <;> rfl

theorem httpRedirect_effects (w : Served) (r : Request) (url : String) (code : Nat) :
    (httpRedirect w r url code).effects = w.effects := by
  simp only [httpRedirect]
  split_ifs <;> rfl

theorem cleanPath_directionPath (isEncode : Bool) :
    cleanPath (directionPath isEncode) = directionPath isEncode := by
  cases isEncode <;> decide

/-- The mux on the route of a namespace: the handler registered for the
namespace when it is in the registry, `http.NotFound` otherwise. -/
theorem mux_namespacePath (env : Env) (encoders : List (String × List PayloadCodec))
    (w : Served) (r : Request) (nspace : String) (isEncode : Bool)
    (hpath : r.path = namespacePath nspace isEncode)
    (hcanon : r.method = "CONNECT" ∨ cleanPath r.path = r.path) :
    newPayloadCodecNamespacesHTTPHandler env encoders w r =
      match encoders.lookup nspace with
      | some chain => handleCodecRequest env w r nspace chain isEncode
      | none => httpError w "404 page not found" 404 := by
  have h1 : ∀ d, (namespacePath nspace isEncode == directionPath d) = false := by
    intro d
    simp only [beq_eq_false_iff_ne, ne_eq]
    exact namespacePath_ne_directionPath nspace isEncode d
  have he : (namespacePath nspace isEncode == "/encode") = false := h1 true
  have hd : (namespacePath nspace isEncode == "/decode") = false := h1 false
  unfold newPayloadCodecNamespacesHTTPHandler
  rw [serveMux_lookup _ w r hcanon, hpath, List.lookup_append, lookup_namespaceRoutes]
  cases hl : encoders.lookup nspace with
  | some chain => simp
  | none => simp [List.lookup_cons, he, hd]

/-- The mux on a header-driven route. -/
theorem mux_directionPath (env : Env) (encoders : List (String × List PayloadCodec))
    (w : Served) (r : Request) (isEncode : Bool) (hpath : r.path = directionPath isEncode) :
    newPayloadCodecNamespacesHTTPHandler env encoders w r =
      headerRoute env encoders isEncode w r := by
  have hcanon : r.method = "CONNECT" ∨ cleanPath r.path = r.path :=
    Or.inr (by rw [hpath]; exact cleanPath_directionPath isEncode)
  unfold newPayloadCodecNamespacesHTTPHandler
  rw [serveMux_lookup _ w r hcanon, hpath, List.lookup_append,
    lookup_namespaceRoutes_direction]
  cases isEncode with
  | true => simp [List.lookup_cons, directionPath]
  | false =>
    have : ("/decode" == "/encode") = false := by decide
    simp [List.lookup_cons, directionPath, this]


/-! ## The exits of `handleCodecRequest` -/

theorem handle_missing (env : Env) (w : Served) (r : Request) (nspace : String)
    (chain : List PayloadCodec) (isEncode : Bool) (hauth : r.headerGet "Authorization" = "") :
    handleCodecRequest env w r nspace chain isEncode =
      httpError (w.printf (.missingAuthorization (operationName isEncode) nspace))
        "Authorization header required" 401 := by
  simp [handleCodecRequest, hauth, operationName]

theorem handle_invalid_token (env : Env) (w : Served) (r : Request) (nspace : String)
    (chain : List PayloadCodec) (isEncode : Bool) (tok err : String)
    (hsplit : stringsSplit (r.headerGet "Authorization") = ["Bearer", tok])
    (hfail : (validateJWTWithJWKS env tok).1 = .error err) :
    handleCodecRequest env w r nspace chain isEncode =
      httpError ((afterValidation env w r nspace isEncode tok).printf
        (.validationFailed (operationName isEncode) nspace err)) "Invalid JWT token" 401 := by
  have hne := authHeader_ne_empty hsplit
  simp [handleCodecRequest, hne, hsplit, hfail, operationName, afterValidation, Served.printf]

theorem handle_method (env : Env) (w : Served) (r : Request) (nspace : String)
    (chain : List PayloadCodec) (isEncode : Bool) (tok : String) (token : Token)
    (hsplit : stringsSplit (r.headerGet "Authorization") = ["Bearer", tok])
    (hvalid : (validateJWTWithJWKS env tok).1 = .ok token)
    (hmethod : r.method ≠ "POST") :
    handleCodecRequest env w r nspace chain isEncode =
      httpError (((afterValidation env w r nspace isEncode tok).printf
        (.validated token nspace (operationName isEncode))).printf
        (.invalidMethod r.method (operationName isEncode))) "Method not allowed" 405 := by
  have hne := authHeader_ne_empty hsplit
  simp [handleCodecRequest, hne, hsplit, hvalid, hmethod, operationName, afterValidation,
    Served.printf]

theorem handle_chain (env : Env) (w : Served) (r : Request) (nspace : String)
    (chain : List PayloadCodec) (isEncode : Bool) (tok : String) (token : Token)
    (batch : List Payload)
    (hsplit : stringsSplit (r.headerGet "Authorization") = ["Bearer", tok])
    (hvalid : (validateJWTWithJWKS env tok).1 = .ok token)
    (hpost : r.method = "POST")
    (hbody : env.decodeBody r.body = .ok batch) :
    handleCodecRequest env w r nspace chain isEncode =
      match codecChainLoop isEncode chain 0 batch
          (beforeChain env w r nspace isEncode tok token batch) with
      | (.error (i, err), w) =>
        httpError (w.printf (.codecError i (operationName isEncode) err))
          ("Codec error: " ++ err) 500
      | (.ok result, w) =>
        let w := w.printf (.processed (operationName isEncode) nspace result.length)
        let w := w.setHeader "Content-Type" "application/json"
        let w := w.emit (Effect.jsonEncode result)
        match env.encodeBody result with
        | .error err =>
          httpError (w.printf (.encodeFailed (operationName isEncode) err))
            "Internal server error" 500
        | .ok bytes => w.write bytes := by
  have hne := authHeader_ne_empty hsplit
  simp [handleCodecRequest, hne, hsplit, hvalid, hpost, hbody, operationName, afterValidation,
    beforeChain, Served.printf]

theorem validation_effects_filter_codec (env : Env) (tok : String) :
    (validateJWTWithJWKS env tok).2.filter Effect.isCodecCall = [] := by
  unfold validateJWTWithJWKS
  cases env.fetch jwksURL <;> simp [Effect.isCodecCall]

theorem validation_effects_filter_json (env : Env) (tok : String) :
    (validateJWTWithJWKS env tok).2.filter Effect.isJsonEncode = [] := by
  unfold validateJWTWithJWKS
  cases env.fetch jwksURL <;> simp [Effect.isJsonEncode]

theorem stageCalls_filter_codec (isEncode : Bool) (i n : Nat) :
    (stageCalls isEncode i n).filter Effect.isCodecCall = stageCalls isEncode i n := by
  simp only [stageCalls, List.filter_eq_self, List.mem_map]
  rintro a ⟨x, -, rfl⟩
  rfl

theorem stageCalls_filter_json (isEncode : Bool) (i n : Nat) :
    (stageCalls isEncode i n).filter Effect.isJsonEncode = [] := by
  simp only [stageCalls, List.filter_eq_nil_iff, List.mem_map]
  rintro a ⟨x, -, rfl⟩
  simp [Effect.isJsonEncode]

theorem handle_chain_error (env : Env) (w : Served) (r : Request) (nspace : String)
    (isEncode : Bool) (tok : String) (token : Token) (batch : List Payload)
    (pre : List PayloadCodec) (stage : PayloadCodec) (post : List PayloadCodec)
    (mid : List Payload) (err : String)
    (hsplit : stringsSplit (r.headerGet "Authorization") = ["Bearer", tok])
    (hvalid : (validateJWTWithJWKS env tok).1 = .ok token)
    (hpost : r.method = "POST")
    (hbody : env.decodeBody r.body = .ok batch)
    (hpre : applyInOrder isEncode pre batch = .ok mid)
    (hstage : stageOp isEncode stage mid = .error err) :
    handleCodecRequest env w r nspace (pre ++ stage :: post) isEncode =
      httpError
        { w with effects := (beforeChain env w r nspace isEncode tok token batch).effects ++
            stageCalls isEncode 0 (pre.length + 1) ++
            [Effect.printf (.codecError pre.length (operationName isEncode) err)] }
        ("Codec error: " ++ err) 500 := by
  rw [handle_chain env w r nspace _ isEncode tok token batch hsplit hvalid hpost hbody,
    codecChainLoop_error isEncode pre stage post 0 batch _ mid err hpre hstage]
  simp [Served.printf, beforeChain, afterValidation]

theorem handle_chain_ok (env : Env) (w : Served) (r : Request) (nspace : String)
    (chain : List PayloadCodec) (isEncode : Bool) (tok : String) (token : Token)
    (batch out : List Payload) (bytes : String)
    (hsplit : stringsSplit (r.headerGet "Authorization") = ["Bearer", tok])
    (hvalid : (validateJWTWithJWKS env tok).1 = .ok token)
    (hpost : r.method = "POST")
    (hbody : env.decodeBody r.body = .ok batch)
    (hchain : applyInOrder isEncode chain batch = .ok out)
    (hjson : env.encodeBody out = .ok bytes) :
    handleCodecRequest env w r nspace chain isEncode =
      { header := (w.setHeader "Content-Type" "application/json").header
        status := some (w.status.getD 200)
        body := w.body ++ bytes
        effects := (beforeChain env w r nspace isEncode tok token batch).effects ++
          stageCalls isEncode 0 chain.length ++
          [Effect.printf (.processed (operationName isEncode) nspace out.length),
           Effect.jsonEncode out] } := by
  rw [handle_chain env w r nspace _ isEncode tok token batch hsplit hvalid hpost hbody,
    codecChainLoop_ok isEncode chain 0 batch _ out hchain]
  simp [Served.printf, beforeChain, afterValidation, hjson, Served.setHeader, Served.emit,
    Served.write]


theorem handle_invalid_format (env : Env) (w : Served) (r : Request) (nspace : String)
    (chain : List PayloadCodec) (isEncode : Bool)
    (hne : r.headerGet "Authorization" ≠ "")
    (hbad : (stringsSplit (r.headerGet "Authorization")).length ≠ 2 ∨
      (stringsSplit (r.headerGet "Authorization")).getD 0 "" ≠ "Bearer") :
    handleCodecRequest env w r nspace chain isEncode =
      httpError ((w.printf (.processingRequest (operationName isEncode) nspace
          (truncate (r.headerGet "Authorization")))).printf
          (.invalidAuthorizationFormat (operationName isEncode) nspace))
        "Invalid authorization format. Use \x27Bearer <token>\x27" 401 := by
  unfold handleCodecRequest
  simp only [hne, if_false, operationName]
  rw [if_pos hbad]

theorem mux_routesTo (env : Env) (encoders : List (String × List PayloadCodec))
    (w : Served) (r : Request) (nspace : String) (chain : List PayloadCodec) (isEncode : Bool)
    (hreg : encoders.lookup nspace = some chain) (hroute : routesTo r nspace isEncode)
    (hcanon : r.method = "CONNECT" ∨ cleanPath r.path = r.path) :
    newPayloadCodecNamespacesHTTPHandler env encoders w r =
      handleCodecRequest env w r nspace chain isEncode := by
  rcases hroute with hpath | ⟨hpath, hns⟩
  · rw [mux_namespacePath env encoders w r nspace isEncode hpath hcanon, hreg]
  · rw [mux_directionPath env encoders w r isEncode hpath]
    unfold headerNamespace at hns
    simp only [headerRoute, hns, hreg]

theorem mux_unregistered (env : Env) (encoders : List (String × List PayloadCodec))
    (w : Served) (r : Request) (nspace : String) (isEncode : Bool)
    (hunreg : encoders.lookup nspace = none) (hroute : routesTo r nspace isEncode)
    (hcanon : r.method = "CONNECT" ∨ cleanPath r.path = r.path) :
    newPayloadCodecNamespacesHTTPHandler env encoders w r =
        httpError w "404 page not found" 404 ∨
      newPayloadCodecNamespacesHTTPHandler env encoders w r =
        httpError (w.printf (.noCodecChain nspace (getMapKeys encoders))) "Not Found" 404 := by
  rcases hroute with hpath | ⟨hpath, hns⟩
  · left
    rw [mux_namespacePath env encoders w r nspace isEncode hpath hcanon, hunreg]
  · right
    rw [mux_directionPath env encoders w r isEncode hpath]
    unfold headerNamespace at hns
    simp only [headerRoute, hns, hunreg]


/-! ## Order of the chain and round trips -/

/-- C1: the chain loop of `handleCodecRequest` applies the stages in declared
order in both directions.  Its result is the left-to-right application of the
chain, each stage with `Encode` for encode and with `Decode` for decode: for a
chain of two stages the second stage receives the result of the first in both
directions.  The empty chain returns the batch unchanged.  For an
authenticated `POST` whose body decodes to `batch`, the stages are called at
positions `0, 1, ...` in this order and the response body is the JSON encoding
of the in-order result. -/
theorem chain_applied_in_declared_order :
    (∀ (isEncode : Bool) (chain : List PayloadCodec) (i : Nat) (batch : List Payload)
        (w : Served),
      (codecChainLoop isEncode chain i batch w).1.mapError Prod.snd =
        applyInOrder isEncode chain batch) ∧
    (∀ (s₁ s₂ : PayloadCodec) (batch : List Payload) (w : Served),
      (codecChainLoop true [s₁, s₂] 0 batch w).1.mapError Prod.snd =
          (s₁.Encode batch).bind s₂.Encode ∧
        (codecChainLoop false [s₁, s₂] 0 batch w).1.mapError Prod.snd =
          (s₁.Decode batch).bind s₂.Decode) ∧
    (∀ (isEncode : Bool) (batch : List Payload) (w : Served),
      codecChainLoop isEncode [] 0 batch w = (.ok batch, w)) ∧
    (∀ (env : Env) (w : Served) (r : Request) (nspace : String) (chain : List PayloadCodec)
        (isEncode : Bool) (tok : String) (token : Token) (batch out : List Payload)
        (bytes : String),
      stringsSplit (r.headerGet "Authorization") = ["Bearer", tok] →
      (validateJWTWithJWKS env tok).1 = .ok token →
      r.method = "POST" →
      env.decodeBody r.body = .ok batch →
      applyInOrder isEncode chain batch = .ok out →
      env.encodeBody out = .ok bytes →
      (handleCodecRequest env w r nspace chain isEncode).status = some (w.status.getD 200) ∧
        (handleCodecRequest env w r nspace chain isEncode).body = w.body ++ bytes ∧
        (handleCodecRequest env w r nspace chain isEncode).effects.filter Effect.isCodecCall =
          w.effects.filter Effect.isCodecCall ++ stageCalls isEncode 0 chain.length ∧
        (handleCodecRequest env w r nspace chain isEncode).effects.filter Effect.isJsonEncode =
          w.effects.filter Effect.isJsonEncode ++ [Effect.jsonEncode out]) := by
  refine ⟨codecChainLoop_result, ?_, ?_, ?_⟩
  · intro s₁ s₂ batch w
    constructor
    · rw [codecChainLoop_result]
      simp only [applyInOrder, List.foldl, Except.bind, stageOp]
      cases s₁.Encode batch <;> rfl
    · rw [codecChainLoop_result]
      simp only [applyInOrder, List.foldl, Except.bind, stageOp]
      cases s₁.Decode batch <;> rfl
  · intro isEncode batch w
    rfl
  · intro env w r nspace chain isEncode tok token batch out bytes hsplit hvalid hpost hbody
      hchain hjson
    rw [handle_chain_ok env w r nspace chain isEncode tok token batch out bytes hsplit hvalid
      hpost hbody hchain hjson]
    simp [beforeChain, afterValidation, Served.printf, List.filter_append,
      validation_effects_filter_codec, validation_effects_filter_json, stageCalls_filter_codec,
      stageCalls_filter_json, Effect.isCodecCall, Effect.isJsonEncode]

/-- The handler part of C1 at a sample request: an authenticated `POST` to the
chain of two tagging stages. -/
theorem chain_applied_in_declared_order_witness :
    stringsSplit ((sampleRequest "POST" "/default/encode"
        [("Authorization", "Bearer good")]).headerGet "Authorization") = ["Bearer", "good"] ∧
    (validateJWTWithJWKS sampleEnv "good").1 = .ok ⟨"alice", "issuer", ["console"], 0⟩ ∧
    applyInOrder true [tagCodec 1, tagCodec 2] [⟨[], [0]⟩] = .ok [⟨[], [2, 1, 0]⟩] ∧
    (handleCodecRequest sampleEnv Served.fresh
        (sampleRequest "POST" "/default/encode" [("Authorization", "Bearer good")])
        "default" [tagCodec 1, tagCodec 2] true).body = "" ++ "\x02\x01\x00" :=
  ⟨by decide, rfl, rfl,
    (chain_applied_in_declared_order.2.2.2 sampleEnv Served.fresh
      (sampleRequest "POST" "/default/encode" [("Authorization", "Bearer good")])
      "default" [tagCodec 1, tagCodec 2] true "good" ⟨"alice", "issuer", ["console"], 0⟩
      [⟨[], [0]⟩] [⟨[], [2, 1, 0]⟩] "\x02\x01\x00"
      (by decide) rfl (by decide) rfl rfl rfl).2.1⟩

/-- C2: for every namespace registered in `main` (`default` and
`tusharb-demo-mtls.sdvdw`, each mapped to the chain of the one stage
`NewPayloadCodec()`), when the stage's `Decode` undoes its `Encode`, the chain
loop in the decode direction run on the successful output of the encode
direction returns the original batch. -/
theorem registered_chain_round_trip (newPayloadCodec : PayloadCodec) (nspace : String)
    (chain : List PayloadCodec) (batch encoded : List Payload) (w w' : Served)
    (hinv : ∀ b b', newPayloadCodec.Encode b = .ok b' → newPayloadCodec.Decode b' = .ok b)
    (hreg : (codecs newPayloadCodec).lookup nspace = some chain)
    (henc : (codecChainLoop true chain 0 batch w).1 = .ok encoded) :
    (nspace = "default" ∨ nspace = "tusharb-demo-mtls.sdvdw") ∧
      chain = [newPayloadCodec] ∧
      (codecChainLoop false chain 0 encoded w').1 = .ok batch := by
  have hchain : (nspace = "default" ∨ nspace = "tusharb-demo-mtls.sdvdw") ∧
      chain = [newPayloadCodec] := by
    simp only [codecs, List.lookup_cons, List.lookup_nil] at hreg
    by_cases h1 : nspace = "default"
    · subst h1
      simp at hreg
      exact ⟨Or.inl rfl, hreg.symm⟩
    · by_cases h2 : nspace = "tusharb-demo-mtls.sdvdw"
      · subst h2
        simp at hreg
        exact ⟨Or.inr rfl, hreg.symm⟩
      · have e1 : (nspace == "default") = false := by simpa using h1
        have e2 : (nspace == "tusharb-demo-mtls.sdvdw") = false := by simpa using h2
        simp [e1, e2] at hreg
  refine ⟨hchain.1, hchain.2, ?_⟩
  rw [hchain.2] at henc ⊢
  cases he : newPayloadCodec.Encode batch with
  | error e => simp [codecChainLoop, he] at henc
  | ok b =>
    simp [codecChainLoop, he] at henc
    subst henc
    simp [codecChainLoop, hinv batch b he]

/-- C2 at the scenario of the specification: the batch of one payload holding
a zero byte through the chain of `default`, with a tagging stage. -/
theorem registered_chain_round_trip_witness :
    (codecs (tagCodec 1)).lookup "default" = some [tagCodec 1] ∧
    (codecChainLoop true [tagCodec 1] 0 [⟨[], [0]⟩] Served.fresh).1 = .ok [⟨[], [1, 0]⟩] ∧
    (codecChainLoop false [tagCodec 1] 0 [⟨[], [1, 0]⟩] Served.fresh).1 = .ok [⟨[], [0]⟩] :=
  ⟨rfl, rfl,
    (registered_chain_round_trip (tagCodec 1) "default" [tagCodec 1] [⟨[], [0]⟩]
      [⟨[], [1, 0]⟩] Served.fresh Served.fresh
      (by
        intro b b' h
        simp only [tagCodec, Except.ok.injEq] at h
        subst h
        simp only [tagCodec, List.map_map]
        congr 1
        conv_rhs => rw [← List.map_id b]
        apply List.map_congr_left
        intro p _
        simp)
      rfl rfl).2.2⟩

/-- C10: the round trip through the chain loop is not guaranteed for a chain of
two stages.  Each of the two tagging stages is invertible on every batch, yet
decoding the encoded batch in the same stage order does not return the
original batch. -/
theorem two_stage_round_trip_not_guaranteed :
    ∃ (s₁ s₂ : PayloadCodec) (batch encoded : List Payload),
      (∀ b, ∃ b', s₁.Encode b = .ok b' ∧ s₁.Decode b' = .ok b) ∧
      (∀ b, ∃ b', s₂.Encode b = .ok b' ∧ s₂.Decode b' = .ok b) ∧
      (∀ w, (codecChainLoop true [s₁, s₂] 0 batch w).1 = .ok encoded) ∧
      (∀ w, (codecChainLoop false [s₁, s₂] 0 encoded w).1 ≠ .ok batch) ∧
      (∀ w, (codecChainLoop false [s₂, s₁] 0 encoded w).1 = .ok batch) := by
  have hinv : ∀ (tag : Nat) (b : List Payload),
      ∃ b', (tagCodec tag).Encode b = .ok b' ∧ (tagCodec tag).Decode b' = .ok b := by
    intro tag b
    refine ⟨_, rfl, ?_⟩
    simp only [tagCodec, List.map_map]
    congr 1
    conv_rhs => rw [← List.map_id b]
    apply List.map_congr_left
    intro p _
    simp
  refine ⟨tagCodec 1, tagCodec 2, [⟨[], [0]⟩], [⟨[], [2, 1, 0]⟩], hinv 1, hinv 2, ?_, ?_, ?_⟩
  · intro w; rfl
  · intro w h
    simp [codecChainLoop, tagCodec] at h
  · intro w; rfl


/-! ## Failure of a codec stage -/

/-- What `handleCodecRequest` does when a stage fails.  For an authenticated
`POST` with a well-formed body and a chain whose first failing stage is at
position `pre.length`, the stages up to that position are called and none
after it, the status is 500, the JSON encoder of the envelope is not called,
and the body is the line `Codec error: ` followed by the error text of the
stage. -/
theorem failing_stage_response (env : Env) (w : Served) (r : Request) (nspace : String)
    (isEncode : Bool) (tok : String) (token : Token) (batch : List Payload)
    (pre : List PayloadCodec) (stage : PayloadCodec) (post : List PayloadCodec)
    (mid : List Payload) (err : String)
    (hsplit : stringsSplit (r.headerGet "Authorization") = ["Bearer", tok])
    (hvalid : (validateJWTWithJWKS env tok).1 = .ok token)
    (hpost : r.method = "POST")
    (hbody : env.decodeBody r.body = .ok batch)
    (hpre : applyInOrder isEncode pre batch = .ok mid)
    (hstage : stageOp isEncode stage mid = .error err) :
    (handleCodecRequest env w r nspace (pre ++ stage :: post) isEncode).status = some 500 ∧
    (handleCodecRequest env w r nspace (pre ++ stage :: post) isEncode).effects.filter
        Effect.isCodecCall =
      w.effects.filter Effect.isCodecCall ++ stageCalls isEncode 0 (pre.length + 1) ∧
    (handleCodecRequest env w r nspace (pre ++ stage :: post) isEncode).effects.filter
        Effect.isJsonEncode = w.effects.filter Effect.isJsonEncode ∧
    (handleCodecRequest env w r nspace (pre ++ stage :: post) isEncode).body =
      w.body ++ "Codec error: " ++ err ++ "\n" ∧
    (handleCodecRequest env w r nspace (pre ++ stage :: post) isEncode).header =
      ((w.setHeader "Content-Type" "text/plain; charset=utf-8").setHeader
        "X-Content-Type-Options" "nosniff").header ∧
    Effect.printf (.codecError pre.length (operationName isEncode) err) ∈
      (handleCodecRequest env w r nspace (pre ++ stage :: post) isEncode).effects := by
  rw [handle_chain_error env w r nspace isEncode tok token batch pre stage post mid err
      hsplit hvalid hpost hbody hpre hstage]
  simp [httpError, Served.setHeader, String.append_assoc, beforeChain, afterValidation,
    Served.printf, List.filter_append, validation_effects_filter_codec,
    validation_effects_filter_json, stageCalls_filter_codec, stageCalls_filter_json,
    Effect.isCodecCall, Effect.isJsonEncode]

/-- C3: the claim asks that two runs differing only in the error returned by
the failing stage send the same status and body.  The code answers both with
status 500, but the bodies differ: the codec-failure exit writes the text of
the underlying error into the response (`Codec error: ` followed by the
error), where the other error exits of the handler send a fixed message. -/
theorem codec_error_text_reaches_client :
    (handleCodecRequest sampleEnv Served.fresh
        (sampleRequest "POST" "/default/decode" [("Authorization", "Bearer good")])
        "default" [failingCodec "zlib: invalid header"] false).statusCode = 500 ∧
    (handleCodecRequest sampleEnv Served.fresh
        (sampleRequest "POST" "/default/decode" [("Authorization", "Bearer good")])
        "default" [failingCodec "unknown key id 7"] false).statusCode = 500 ∧
    (handleCodecRequest sampleEnv Served.fresh
        (sampleRequest "POST" "/default/decode" [("Authorization", "Bearer good")])
        "default" [failingCodec "zlib: invalid header"] false).body =
      "Codec error: zlib: invalid header\n" ∧
    (handleCodecRequest sampleEnv Served.fresh
        (sampleRequest "POST" "/default/decode" [("Authorization", "Bearer good")])
        "default" [failingCodec "unknown key id 7"] false).body =
      "Codec error: unknown key id 7\n" ∧
    (handleCodecRequest sampleEnv Served.fresh
        (sampleRequest "POST" "/default/decode" [("Authorization", "Bearer good")])
        "default" [failingCodec "zlib: invalid header"] false).body ≠
      (handleCodecRequest sampleEnv Served.fresh
        (sampleRequest "POST" "/default/decode" [("Authorization", "Bearer good")])
        "default" [failingCodec "unknown key id 7"] false).body := by
  decide

/-- C4: the claim asks that, when the stage at position `k` fails, no stage
after `k` is called, the status is 500 and the body holds no payloads object.
On the chain of three stages whose second stage fails with an error text that
quotes its input as a payloads object, the code calls the stages at positions
0 and 1 only, answers 500 and never calls the JSON encoder, but the body it
sends carries that payloads object, the result of the stage before `k`: the
codec-failure exit writes the error text into the response. -/
theorem stage_error_text_carries_payloads_object :
    (handleCodecRequest sampleEnv Served.fresh (sampleRequest "POST" "/default/encode" [("Authorization", "Bearer good")]) "default"
        [tagCodec 1, failingCodec "\x7b\x22payloads\x22:[\x7b\x22data\x22:\x22AQA=\x22\x7d]\x7d", tagCodec 2] true).statusCode = 500 ∧
    (handleCodecRequest sampleEnv Served.fresh (sampleRequest "POST" "/default/encode" [("Authorization", "Bearer good")]) "default"
        [tagCodec 1, failingCodec "\x7b\x22payloads\x22:[\x7b\x22data\x22:\x22AQA=\x22\x7d]\x7d", tagCodec 2] true).effects.filter
          Effect.isCodecCall = [Effect.codecCall 0 true, Effect.codecCall 1 true] ∧
    (handleCodecRequest sampleEnv Served.fresh (sampleRequest "POST" "/default/encode" [("Authorization", "Bearer good")]) "default"
        [tagCodec 1, failingCodec "\x7b\x22payloads\x22:[\x7b\x22data\x22:\x22AQA=\x22\x7d]\x7d", tagCodec 2] true).effects.filter
          Effect.isJsonEncode = [] ∧
    (handleCodecRequest sampleEnv Served.fresh (sampleRequest "POST" "/default/encode" [("Authorization", "Bearer good")]) "default"
        [tagCodec 1, failingCodec "\x7b\x22payloads\x22:[\x7b\x22data\x22:\x22AQA=\x22\x7d]\x7d", tagCodec 2] true).body =
      "Codec error: " ++ "\x7b\x22payloads\x22:[\x7b\x22data\x22:\x22AQA=\x22\x7d]\x7d" ++ "\n" := by
  decide

/-! ## Authentication -/

/-- C5, as stated, fails: without an `Authorization` header a request naming
an unregistered namespace (by path or by header) is answered 404, and with CORS
enabled an `OPTIONS` request is answered 200. -/
theorem missing_authorization_not_always_unauthorized :
    (sampleRequest "POST" "/unknown-namespace/encode" []).headerGet "Authorization" = "" ∧
    (mainHandler sampleEnv "" (tagCodec 1) Served.fresh
      (sampleRequest "POST" "/unknown-namespace/encode" [])).statusCode = 404 ∧
    (sampleRequest "POST" "/encode"
      [("X-Namespace", "unknown-namespace")]).headerGet "Authorization" = "" ∧
    (mainHandler sampleEnv "" (tagCodec 1) Served.fresh
      (sampleRequest "POST" "/encode" [("X-Namespace", "unknown-namespace")])).statusCode = 404 ∧
    (sampleRequest "OPTIONS" "/default/encode" []).headerGet "Authorization" = "" ∧
    (mainHandler sampleEnv "https://console.example" (tagCodec 1) Served.fresh
      (sampleRequest "OPTIONS" "/default/encode" [])).statusCode = 200 := by
  decide

/-- The keys of the registry of `main` and the chain of each. -/
theorem codecs_lookup (newPayloadCodec : PayloadCodec) (nspace : String)
    (chain : List PayloadCodec)
    (hreg : (codecs newPayloadCodec).lookup nspace = some chain) :
    (nspace = "default" ∨ nspace = "tusharb-demo-mtls.sdvdw") ∧ chain = [newPayloadCodec] := by
  simp only [codecs, List.lookup_cons, List.lookup_nil] at hreg
  by_cases h1 : nspace = "default"
  · subst h1
    simp at hreg
    exact ⟨Or.inl rfl, hreg.symm⟩
  · by_cases h2 : nspace = "tusharb-demo-mtls.sdvdw"
    · subst h2
      simp at hreg
      exact ⟨Or.inr rfl, hreg.symm⟩
    · have e1 : (nspace == "default") = false := by simpa using h1
      have e2 : (nspace == "tusharb-demo-mtls.sdvdw") = false := by simpa using h2
      simp [e1, e2] at hreg

/-- A request that names a namespace whose route is a canonical path has a
canonical path. -/
theorem routesTo_canonical (r : Request) (nspace : String) (isEncode : Bool)
    (hroute : routesTo r nspace isEncode)
    (hkey : cleanPath (namespacePath nspace isEncode) = namespacePath nspace isEncode) :
    cleanPath r.path = r.path := by
  rcases hroute with hpath | ⟨hpath, _⟩
  · rw [hpath]; exact hkey
  · rw [hpath]; exact cleanPath_directionPath isEncode

/-- The routes of the namespaces registered in `main` are canonical paths. -/
theorem cleanPath_registered (newPayloadCodec : PayloadCodec) (nspace : String)
    (chain : List PayloadCodec) (isEncode : Bool)
    (hreg : (codecs newPayloadCodec).lookup nspace = some chain) :
    cleanPath (namespacePath nspace isEncode) = namespacePath nspace isEncode := by
  rcases (codecs_lookup newPayloadCodec nspace chain hreg).1 with h | h <;> subst h <;>
    cases isEncode <;> decide

/-- C5, amended: a request without an `Authorization` header that names a
registered namespace (by path or by `X-Namespace` header) is answered 401
`Authorization header required` whatever its method, by the handler of
`newPayloadCodecNamespacesHTTPHandler` and by the handler of `main`; when CORS
is enabled this holds for every method but `OPTIONS`. -/
theorem missing_authorization_on_registered_route (env : Env) (webFlag : String)
    (newPayloadCodec : PayloadCodec) (w : Served) (r : Request) (nspace : String)
    (chain : List PayloadCodec) (isEncode : Bool)
    (hauth : r.headerGet "Authorization" = "")
    (hreg : (codecs newPayloadCodec).lookup nspace = some chain)
    (hroute : routesTo r nspace isEncode)
    (hcors : webFlag = "" ∨ r.method ≠ "OPTIONS") :
    (newPayloadCodecNamespacesHTTPHandler env (codecs newPayloadCodec) w r).status = some 401 ∧
    (newPayloadCodecNamespacesHTTPHandler env (codecs newPayloadCodec) w r).body =
      w.body ++ "Authorization header required\n" ∧
    (mainHandler env webFlag newPayloadCodec w r).status = some 401 ∧
    (mainHandler env webFlag newPayloadCodec w r).body =
      w.body ++ "Authorization header required\n" := by
  have hcanon : r.method = "CONNECT" ∨ cleanPath r.path = r.path :=
    Or.inr (routesTo_canonical r nspace isEncode hroute
      (cleanPath_registered newPayloadCodec nspace chain isEncode hreg))
  have hmux : ∀ w', newPayloadCodecNamespacesHTTPHandler env (codecs newPayloadCodec) w' r =
      httpError (w'.printf (.missingAuthorization (operationName isEncode) nspace))
        "Authorization header required" 401 := by
    intro w'
    rw [mux_routesTo env _ w' r nspace chain isEncode hreg hroute hcanon,
      handle_missing env w' r nspace chain isEncode hauth]
  refine ⟨by simp [hmux, httpError], by simp [hmux, httpError, Served.printf,
    Served.setHeader, String.append_assoc], ?_, ?_⟩
  · unfold mainHandler requestLoggingMiddleware newCORSHTTPHandler
    rcases hcors with hweb | hopt
    · simp [hweb, hmux, httpError, Served.printf]
    · by_cases hweb : webFlag = ""
      · simp [hweb, hmux, httpError, Served.printf]
      · simp [hweb, hopt, hmux, httpError, Served.printf]
  · unfold mainHandler requestLoggingMiddleware newCORSHTTPHandler
    rcases hcors with hweb | hopt
    · by_cases hx : r.headerGet "X-Namespace" = "" <;>
        simp [hweb, hx, hmux, httpError, Served.printf, Served.setHeader, String.append_assoc]
    · by_cases hweb : webFlag = "" <;> by_cases hx : r.headerGet "X-Namespace" = "" <;>
        simp [hweb, hopt, hx, hmux, httpError, Served.printf, Served.setHeader,
          String.append_assoc]

/-- C5 amended, at a sample request: a `DELETE` on `/decode` for the second
registered namespace, with CORS enabled. -/
theorem missing_authorization_on_registered_route_witness :
    (sampleRequest "DELETE" "/decode"
      [("X-Namespace", "tusharb-demo-mtls.sdvdw")]).headerGet "Authorization" = "" ∧
    routesTo (sampleRequest "DELETE" "/decode" [("X-Namespace", "tusharb-demo-mtls.sdvdw")])
      "tusharb-demo-mtls.sdvdw" false ∧
    (mainHandler sampleEnv "https://console.example" (tagCodec 1) Served.fresh
      (sampleRequest "DELETE" "/decode"
        [("X-Namespace", "tusharb-demo-mtls.sdvdw")])).status = some 401 :=
  ⟨by decide, by decide,
    (missing_authorization_on_registered_route sampleEnv "https://console.example"
      (tagCodec 1) Served.fresh
      (sampleRequest "DELETE" "/decode" [("X-Namespace", "tusharb-demo-mtls.sdvdw")])
      "tusharb-demo-mtls.sdvdw" [tagCodec 1] false (by decide) rfl (by decide)
      (Or.inr (by decide))).2.2.1⟩

/-- C6: for a request whose `Authorization` header is `Bearer <token>`, every
failure of `validateJWTWithJWKS` is answered with status 401 and the body
`Invalid JWT token`, whatever the error, and no codec stage is called.  A
failure to fetch the key set and a failure to parse or verify the token are
both such failures. -/
theorem invalid_token_response_uniform (env : Env) (w : Served) (r : Request)
    (nspace : String) (chain : List PayloadCodec) (isEncode : Bool) (token : String)
    (hform : r.headerGet "Authorization" = "Bearer " ++ token)
    (hword : ' ' ∉ token.data) :
    (∀ err, (validateJWTWithJWKS env token).1 = .error err →
      (handleCodecRequest env w r nspace chain isEncode).status = some 401 ∧
      (handleCodecRequest env w r nspace chain isEncode).body =
        w.body ++ "Invalid JWT token\n" ∧
      (handleCodecRequest env w r nspace chain isEncode).header =
        ((w.setHeader "Content-Type" "text/plain; charset=utf-8").setHeader
          "X-Content-Type-Options" "nosniff").header ∧
      (handleCodecRequest env w r nspace chain isEncode).effects.filter Effect.isCodecCall =
        w.effects.filter Effect.isCodecCall) ∧
    (∀ e, env.fetch jwksURL = .error e →
      (validateJWTWithJWKS env token).1 = .error ("failed to fetch JWKS: " ++ e)) ∧
    (∀ keySet e, env.fetch jwksURL = .ok keySet → env.parse token keySet = .error e →
      (validateJWTWithJWKS env token).1 = .error e) := by
  have hsplit : stringsSplit (r.headerGet "Authorization") = ["Bearer", token] := by
    rw [hform]
    exact stringsSplit_bearer token hword
  refine ⟨?_, ?_, ?_⟩
  · intro err hfail
    rw [handle_invalid_token env w r nspace chain isEncode token err hsplit hfail]
    simp [httpError, Served.setHeader, String.append_assoc, afterValidation, Served.printf,
      List.filter_append, validation_effects_filter_codec, Effect.isCodecCall]
  · intro e he
    simp [validateJWTWithJWKS, he]
  · intro keySet e hk he
    simp [validateJWTWithJWKS, hk, he]

/-- C6 at two sample requests: the key-set endpoint is unreachable, and the
token does not verify. -/
theorem invalid_token_response_uniform_witness :
    (sampleRequest "POST" "/default/encode"
      [("Authorization", "Bearer good")]).headerGet "Authorization" = "Bearer " ++ "good" ∧
    (validateJWTWithJWKS offlineEnv "good").1 =
      .error "failed to fetch JWKS: dial tcp: i/o timeout" ∧
    (handleCodecRequest offlineEnv Served.fresh
      (sampleRequest "POST" "/default/encode" [("Authorization", "Bearer good")])
      "default" [tagCodec 1] true).status = some 401 :=
  ⟨by decide, rfl,
    ((invalid_token_response_uniform offlineEnv Served.fresh
      (sampleRequest "POST" "/default/encode" [("Authorization", "Bearer good")])
      "default" [tagCodec 1] true "good" (by decide) (by decide)).1
        "failed to fetch JWKS: dial tcp: i/o timeout" rfl).1⟩


/-! ## Routing -/

/-- C7: for every registered namespace `N` (whose route is a canonical path, as
the routes of `main` are), a request sent to `/encode` (or `/decode`) whose
`X-Namespace` header is `N`, or is absent when `N` is `default`, gets exactly
the response of the same request sent to `/N/encode` (or `/N/decode`): both
are served by `handleCodecRequest` with the chain of `N` and the same
direction. -/
theorem header_route_equals_namespace_route (env : Env)
    (encoders : List (String × List PayloadCodec)) (w : Served) (r : Request)
    (nspace : String) (chain : List PayloadCodec) (isEncode : Bool)
    (hreg : encoders.lookup nspace = some chain)
    (hkey : cleanPath (namespacePath nspace isEncode) = namespacePath nspace isEncode)
    (hns : headerNamespace r = nspace) :
    newPayloadCodecNamespacesHTTPHandler env encoders w
        { r with path := directionPath isEncode } =
      newPayloadCodecNamespacesHTTPHandler env encoders w
        { r with path := namespacePath nspace isEncode } ∧
    newPayloadCodecNamespacesHTTPHandler env encoders w
        { r with path := directionPath isEncode } =
      handleCodecRequest env w r nspace chain isEncode ∧
    newPayloadCodecNamespacesHTTPHandler env encoders w
        { r with path := namespacePath nspace isEncode } =
      handleCodecRequest env w r nspace chain isEncode := by
  have h1 : newPayloadCodecNamespacesHTTPHandler env encoders w
      { r with path := directionPath isEncode } =
      handleCodecRequest env w r nspace chain isEncode :=
    mux_routesTo env encoders w { r with path := directionPath isEncode } nspace chain isEncode
      hreg (Or.inr ⟨rfl, hns⟩) (Or.inr (cleanPath_directionPath isEncode))
  have h2 : newPayloadCodecNamespacesHTTPHandler env encoders w
      { r with path := namespacePath nspace isEncode } =
      handleCodecRequest env w r nspace chain isEncode :=
    mux_routesTo env encoders w { r with path := namespacePath nspace isEncode } nspace chain
      isEncode hreg (Or.inl rfl) (Or.inr hkey)
  exact ⟨h1.trans h2.symm, h1, h2⟩

/-- C7 at the registry of `main`: `/encode` without an `X-Namespace` header
against `/default/encode`. -/
theorem header_route_equals_namespace_route_witness :
    (codecs (tagCodec 1)).lookup "default" = some [tagCodec 1] ∧
    cleanPath (namespacePath "default" true) = namespacePath "default" true ∧
    headerNamespace (sampleRequest "POST" "" [("Authorization", "Bearer good")]) = "default" ∧
    newPayloadCodecNamespacesHTTPHandler sampleEnv (codecs (tagCodec 1)) Served.fresh
        { sampleRequest "POST" "" [("Authorization", "Bearer good")] with
          path := directionPath true } =
      newPayloadCodecNamespacesHTTPHandler sampleEnv (codecs (tagCodec 1)) Served.fresh
        { sampleRequest "POST" "" [("Authorization", "Bearer good")] with
          path := namespacePath "default" true } :=
  ⟨rfl, by decide, by decide,
    (header_route_equals_namespace_route sampleEnv (codecs (tagCodec 1)) Served.fresh
      (sampleRequest "POST" "" [("Authorization", "Bearer good")]) "default" [tagCodec 1]
      true rfl (by decide) (by decide)).1⟩

/-- C8, as stated, fails: authentication is checked before the method, so a
`GET` to `/default/encode` without a valid token is answered 401, and the
method check is not the first failure exit. -/
theorem non_post_without_valid_token_is_unauthorized :
    (newPayloadCodecNamespacesHTTPHandler sampleEnv (codecs (tagCodec 1)) Served.fresh
      (sampleRequest "GET" "/default/encode" [])).statusCode = 401 ∧
    (newPayloadCodecNamespacesHTTPHandler sampleEnv (codecs (tagCodec 1)) Served.fresh
      (sampleRequest "GET" "/default/encode" [("Authorization", "Bearer bad")])).statusCode =
      401 ∧
    (mainHandler sampleEnv "" (tagCodec 1) Served.fresh
      (sampleRequest "GET" "/default/encode" [])).statusCode = 401 := by
  decide

/-- C8, amended: a request to the encode or decode route of a registered
namespace (a canonical path, as the routes of `main` are) whose method is not
`POST` is answered 405 `Method not allowed`, with no codec stage called, when
its bearer token is accepted by `validateJWTWithJWKS`; when the
`Authorization` header is absent, is not of the form `Bearer <token>`, or
carries a token that fails validation, it is answered 401: the method check
comes after the three authentication exits. -/
theorem non_post_rejected_after_authentication (env : Env)
    (encoders : List (String × List PayloadCodec)) (w : Served) (r : Request)
    (nspace : String) (chain : List PayloadCodec) (isEncode : Bool)
    (hreg : encoders.lookup nspace = some chain)
    (hkey : cleanPath (namespacePath nspace isEncode) = namespacePath nspace isEncode)
    (hroute : routesTo r nspace isEncode)
    (hmethod : r.method ≠ "POST") :
    (∀ tok token, stringsSplit (r.headerGet "Authorization") = ["Bearer", tok] →
      (validateJWTWithJWKS env tok).1 = .ok token →
      (newPayloadCodecNamespacesHTTPHandler env encoders w r).status = some 405 ∧
      (newPayloadCodecNamespacesHTTPHandler env encoders w r).body =
        w.body ++ "Method not allowed\n" ∧
      (newPayloadCodecNamespacesHTTPHandler env encoders w r).effects.filter
        Effect.isCodecCall = w.effects.filter Effect.isCodecCall) ∧
    (r.headerGet "Authorization" = "" →
      (newPayloadCodecNamespacesHTTPHandler env encoders w r).status = some 401) ∧
    (r.headerGet "Authorization" ≠ "" →
      ((stringsSplit (r.headerGet "Authorization")).length ≠ 2 ∨
        (stringsSplit (r.headerGet "Authorization")).getD 0 "" ≠ "Bearer") →
      (newPayloadCodecNamespacesHTTPHandler env encoders w r).status = some 401) ∧
    (∀ tok err, stringsSplit (r.headerGet "Authorization") = ["Bearer", tok] →
      (validateJWTWithJWKS env tok).1 = .error err →
      (newPayloadCodecNamespacesHTTPHandler env encoders w r).status = some 401) := by
  rw [mux_routesTo env encoders w r nspace chain isEncode hreg hroute
    (Or.inr (routesTo_canonical r nspace isEncode hroute hkey))]
  refine ⟨?_, ?_, ?_, ?_⟩
  · intro tok token hsplit hvalid
    rw [handle_method env w r nspace chain isEncode tok token hsplit hvalid hmethod]
    simp [httpError, Served.setHeader, String.append_assoc, afterValidation, Served.printf,
      List.filter_append, validation_effects_filter_codec, Effect.isCodecCall]
  · intro hauth
    rw [handle_missing env w r nspace chain isEncode hauth]
    simp [httpError]
  · intro hne hbad
    rw [handle_invalid_format env w r nspace chain isEncode hne hbad]
    simp [httpError]
  · intro tok err hsplit hfail
    rw [handle_invalid_token env w r nspace chain isEncode tok err hsplit hfail]
    simp [httpError]

/-- C8 amended, at a sample request: an authenticated `GET` to
`/default/encode`. -/
theorem non_post_rejected_after_authentication_witness :
    (codecs (tagCodec 1)).lookup "default" = some [tagCodec 1] ∧
    cleanPath (namespacePath "default" true) = namespacePath "default" true ∧
    routesTo (sampleRequest "GET" "/default/encode" [("Authorization", "Bearer good")])
      "default" true ∧
    (newPayloadCodecNamespacesHTTPHandler sampleEnv (codecs (tagCodec 1)) Served.fresh
      (sampleRequest "GET" "/default/encode" [("Authorization", "Bearer good")])).status =
      some 405 :=
  ⟨rfl, by decide, by decide,
    ((non_post_rejected_after_authentication sampleEnv (codecs (tagCodec 1)) Served.fresh
      (sampleRequest "GET" "/default/encode" [("Authorization", "Bearer good")])
      "default" [tagCodec 1] true rfl (by decide) (by decide) (by decide)).1
        "good" ⟨"alice", "issuer", ["console"], 0⟩ (by decide) rfl).1⟩

/-- C9, as stated, fails: a request whose path names an unregistered namespace
but is not in canonical form is not answered 404; the mux redirects it to the
cleaned path. -/
theorem unregistered_namespace_redirected :
    (codecs (tagCodec 1)).lookup "/default" = none ∧
    routesTo (sampleRequest "POST" "//default/encode" []) "/default" true ∧
    (newPayloadCodecNamespacesHTTPHandler sampleEnv (codecs (tagCodec 1)) Served.fresh
      (sampleRequest "POST" "//default/encode" [])).statusCode = 307 ∧
    (newPayloadCodecNamespacesHTTPHandler sampleEnv (codecs (tagCodec 1)) Served.fresh
      (sampleRequest "POST" "//default/encode" [])).header =
      [("Location", "/default/encode")] ∧
    (codecs (tagCodec 1)).lookup "x/../unknown-namespace" = none ∧
    routesTo (sampleRequest "POST" "/x/../unknown-namespace/encode" [])
      "x/../unknown-namespace" true ∧
    (newPayloadCodecNamespacesHTTPHandler sampleEnv (codecs (tagCodec 1)) Served.fresh
      (sampleRequest "POST" "/x/../unknown-namespace/encode" [])).statusCode = 307 :=
  ⟨rfl, by decide, by decide, by decide, rfl, by decide, by decide⟩

/-- C9, amended: a request that names a namespace absent from the registry, by
its path `/<namespace>/encode` or `/<namespace>/decode` or on `/encode` or
`/decode` by its `X-Namespace` header (`default` when the header is absent),
never reaches the authenticator or a codec stage.  It is answered 404 when its
path is in canonical form (or its method is `CONNECT`); otherwise the mux
answers with its redirect to the cleaned path. -/
theorem unregistered_namespace_not_found (env : Env)
    (encoders : List (String × List PayloadCodec)) (w : Served) (r : Request)
    (nspace : String) (isEncode : Bool)
    (hunreg : encoders.lookup nspace = none)
    (hroute : routesTo r nspace isEncode) :
    (newPayloadCodecNamespacesHTTPHandler env encoders w r).effects.filter
      Effect.isAuthCall = w.effects.filter Effect.isAuthCall ∧
    (newPayloadCodecNamespacesHTTPHandler env encoders w r).effects.filter
      Effect.isCodecCall = w.effects.filter Effect.isCodecCall ∧
    ((r.method = "CONNECT" ∨ cleanPath r.path = r.path) →
      (newPayloadCodecNamespacesHTTPHandler env encoders w r).status = some 404) ∧
    (r.method ≠ "CONNECT" → cleanPath r.path ≠ r.path →
      newPayloadCodecNamespacesHTTPHandler env encoders w r =
          httpRedirect w r (cleanPath r.path) muxRedirectStatus ∧
        (newPayloadCodecNamespacesHTTPHandler env encoders w r).status =
          some muxRedirectStatus) := by
  by_cases hcanon : r.method = "CONNECT" ∨ cleanPath r.path = r.path
  · have h404 : (newPayloadCodecNamespacesHTTPHandler env encoders w r).effects.filter
          Effect.isAuthCall = w.effects.filter Effect.isAuthCall ∧
        (newPayloadCodecNamespacesHTTPHandler env encoders w r).effects.filter
          Effect.isCodecCall = w.effects.filter Effect.isCodecCall ∧
        (newPayloadCodecNamespacesHTTPHandler env encoders w r).status = some 404 := by
      rcases mux_unregistered env encoders w r nspace isEncode hunreg hroute hcanon with h | h <;>
        rw [h] <;>
        simp [httpError, Served.setHeader, Served.printf, List.filter_append,
          Effect.isAuthCall, Effect.isCodecCall]
    refine ⟨h404.1, h404.2.1, fun _ => h404.2.2, ?_⟩
    intro hm hp
    rcases hcanon with h | h
    · exact absurd h hm
    · exact absurd h hp
  · have hm : r.method ≠ "CONNECT" := fun h => hcanon (Or.inl h)
    have hp : cleanPath r.path ≠ r.path := fun h => hcanon (Or.inr h)
    have hred : newPayloadCodecNamespacesHTTPHandler env encoders w r =
        httpRedirect w r (cleanPath r.path) muxRedirectStatus := by
      unfold newPayloadCodecNamespacesHTTPHandler
      exact serveMux_redirect _ w r hm hp
    have hstatus := httpRedirect_status w r (cleanPath r.path) muxRedirectStatus
    have heff := httpRedirect_effects w r (cleanPath r.path) muxRedirectStatus
    refine ⟨by rw [hred, heff], by rw [hred, heff], fun h => absurd h hcanon, ?_⟩
    intro _ _
    exact ⟨hred, by rw [hred, hstatus]⟩

/-- C9 amended, at the request of the specification:
`/unknown-namespace/encode` against the registry of `main`. -/
theorem unregistered_namespace_not_found_witness :
    (codecs (tagCodec 1)).lookup "unknown-namespace" = none ∧
    routesTo (sampleRequest "POST" "/unknown-namespace/encode"
      [("Authorization", "Bearer good")]) "unknown-namespace" true ∧
    cleanPath (sampleRequest "POST" "/unknown-namespace/encode"
      [("Authorization", "Bearer good")]).path = "/unknown-namespace/encode" ∧
    (newPayloadCodecNamespacesHTTPHandler sampleEnv (codecs (tagCodec 1)) Served.fresh
      (sampleRequest "POST" "/unknown-namespace/encode"
        [("Authorization", "Bearer good")])).status = some 404 :=
  ⟨rfl, by decide, by decide,
    (unregistered_namespace_not_found sampleEnv (codecs (tagCodec 1)) Served.fresh
      (sampleRequest "POST" "/unknown-namespace/encode" [("Authorization", "Bearer good")])
      "unknown-namespace" true rfl (by decide)).2.2.1 (Or.inr (by decide))⟩

end CodecServer
